import Mathlib

/-!
# OutbreakAI chat widget controller (`static/chatbot.js`)

A shallow embedding of the browser script that wires the chat form, the chat
window, the image container and the reset button to the `/chat` and `/reset`
endpoints, together with the properties of its handlers.

The page is an explicit state (`Page`); every handler and every promise
callback is a function on that state.  A callback that throws leaves the page as
it was at the throw, which is what `Completion` records.  The two libraries the
script calls, `marked` and `DOMPurify`, are not part of the repository and are
parameters (`Libs`).  The scroll position of the chat window is layout state and
is not part of the model.
-/

namespace Chatbot

/-! ## JavaScript values and coercions -/

/-- A JavaScript number, represented by the two observations the script can make
of it: whether it is `+0` or `-0` (the only numbers `JSON.parse` yields that are
falsy) and the text `Number::toString` gives for it. -/
structure JSNumber where
  isZero : Bool
  text : String
deriving DecidableEq, Repr

/-- The values a decoded response body and its properties can be: the JSON
values, and `undefined` for a property that is not there.  Strings are sequences
of Unicode scalar values.  An object is the list of its own properties; should a
name occur twice, its first entry is the property. -/
inductive JSValue where
  | undefined
  | null
  | bool (b : Bool)
  | number (n : JSNumber)
  | string (s : String)
  | array (items : List JSValue)
  | object (fields : List (String × JSValue))
deriving Repr

/-- ECMAScript `ToBoolean`, the test of `if (data.image)`. -/
def toBoolean : JSValue → Bool
  | .undefined => false
  | .null => false
  | .bool b => b
  | .number n => !n.isZero
  | .string s => !(s == "")
  | .array _ => true
  | .object _ => true

/-- Whether an object decoded from JSON has an own property of that name. -/
def hasOwn (fields : List (String × JSValue)) (key : String) : Bool :=
  fields.any (fun f => f.1 == key)

mutual
/-- ECMAScript `ToString` on a value decoded from JSON, as the `+` of
`"data:image/png;base64," + data.image` applies it; `none` is a thrown
`TypeError`.  A plain object converts through `Object.prototype.toString`
unless an own `toString` entry (never callable in decoded JSON) shadows it, in
which case no primitive is found; an array converts through `join`. -/
def toStringJS : JSValue → Option String
  | .undefined => some "undefined"
  | .null => some "null"
  | .bool true => some "true"
  | .bool false => some "false"
  | .number n => some n.text
  | .string s => some s
  | .array items => joinJS items
  | .object fields => if hasOwn fields "toString" then none else some "[object Object]"
/-- The function `Array.prototype.join` with the default separator: `undefined`
and `null` elements contribute the empty string. -/
def joinJS : List JSValue → Option String
  | [] => some ""
  | [x] => elementText x
  | x :: y :: rest =>
    match elementText x with
    | none => none
    | some a =>
      match joinJS (y :: rest) with
      | none => none
      | some b => some (a ++ "," ++ b)
/-- The text of one array element inside `join`. -/
def elementText : JSValue → Option String
  | .undefined => some ""
  | .null => some ""
  | .bool true => some "true"
  | .bool false => some "false"
  | .number n => some n.text
  | .string s => some s
  | .array items => joinJS items
  | .object fields => if hasOwn fields "toString" then none else some "[object Object]"
end

/-- Property read `value.key` for a key that no built-in prototype defines (the
script reads `reply` and `image`): a `TypeError` (`none`) on `null` and
`undefined`, the own property of an object, `undefined` otherwise. -/
def getProperty (value : JSValue) (key : String) : Option JSValue :=
  match value with
  | .undefined => none
  | .null => none
  | .object fields =>
    match fields.find? (fun f => f.1 == key) with
    | some f => some f.2
    | none => some .undefined
  | _ => some .undefined

/-! ## `String.prototype.trim` -/

/-- ECMAScript `WhiteSpace` and `LineTerminator` code points, the ones `trim`
strips. -/
def isWhiteSpace (c : Char) : Bool :=
  let n := c.toNat
  n == 0x09 || n == 0x0A || n == 0x0B || n == 0x0C || n == 0x0D || n == 0x20 ||
  n == 0xA0 || n == 0x1680 || (0x2000 ≤ n && n ≤ 0x200A) || n == 0x2028 ||
  n == 0x2029 || n == 0x202F || n == 0x205F || n == 0x3000 || n == 0xFEFF

/-- Strip leading, then trailing, white space from a list of characters. -/
def trimChars (cs : List Char) : List Char :=
  ((cs.dropWhile isWhiteSpace).reverse.dropWhile isWhiteSpace).reverse

/-- The method `String.prototype.trim`. -/
def trim (s : String) : String :=
  String.mk (trimChars s.data)

/-! ## `JSON.stringify` on the request object -/

/-- Lower-case hexadecimal digit of a number below 16. -/
def hexDigit (n : Nat) : Char :=
  if n < 10 then Char.ofNat (48 + n) else Char.ofNat (87 + n)

/-- ECMAScript `UnicodeEscape`: a backslash, `u` and four hexadecimal digits. -/
def unicodeEscape (n : Nat) : List Char :=
  [Char.ofNat 0x5C, Char.ofNat 0x75, hexDigit (n / 4096 % 16), hexDigit (n / 256 % 16),
    hexDigit (n / 16 % 16), hexDigit (n % 16)]

/-- How `QuoteJSONString` writes one character. -/
def quoteChar (c : Char) : List Char :=
  let n := c.toNat
  if n = 0x08 then [Char.ofNat 0x5C, Char.ofNat 0x62]
  else if n = 0x09 then [Char.ofNat 0x5C, Char.ofNat 0x74]
  else if n = 0x0A then [Char.ofNat 0x5C, Char.ofNat 0x6E]
  else if n = 0x0C then [Char.ofNat 0x5C, Char.ofNat 0x66]
  else if n = 0x0D then [Char.ofNat 0x5C, Char.ofNat 0x72]
  else if n = 0x22 then [Char.ofNat 0x5C, Char.ofNat 0x22]
  else if n = 0x5C then [Char.ofNat 0x5C, Char.ofNat 0x5C]
  else if n < 0x20 then unicodeEscape n
  else [c]

/-- ECMAScript `QuoteJSONString`. -/
def quoteJSONString (s : String) : String :=
  String.mk (Char.ofNat 0x22 :: (s.data.flatMap quoteChar ++ [Char.ofNat 0x22]))

/-- The value of `JSON.stringify({ message: text })`. -/
def JSON.stringify (text : String) : String :=
  "\x7b" ++ quoteJSONString "message" ++ ":" ++ quoteJSONString text ++ "\x7d"

/-- Value of a hexadecimal digit. -/
def hexValue (c : Char) : Option Nat :=
  let n := c.toNat
  if 48 ≤ n ∧ n ≤ 57 then some (n - 48)
  else if 97 ≤ n ∧ n ≤ 102 then some (n - 87)
  else if 65 ≤ n ∧ n ≤ 70 then some (n - 55)
  else none

/-- The character a two-character JSON escape stands for (RFC 8259, section 7). -/
def simpleEscape (c : Char) : Option Char :=
  let n := c.toNat
  if n = 0x22 then some (Char.ofNat 0x22)
  else if n = 0x5C then some (Char.ofNat 0x5C)
  else if n = 0x2F then some (Char.ofNat 0x2F)
  else if n = 0x62 then some (Char.ofNat 0x08)
  else if n = 0x66 then some (Char.ofNat 0x0C)
  else if n = 0x6E then some (Char.ofNat 0x0A)
  else if n = 0x72 then some (Char.ofNat 0x0D)
  else if n = 0x74 then some (Char.ofNat 0x09)
  else none

/-- Where a reader of a JSON string stands: in plain text, after a backslash, or
inside a `\u` escape with `left` digits to go and value `acc` so far. -/
inductive ReadState where
  | text
  | escape
  | hex (left : Nat) (acc : Nat)

/-- Read a JSON string (RFC 8259, section 7) whose opening quotation mark has
been consumed: the characters it denotes and the input after its closing
quotation mark.  Escapes of surrogate code units are not read. -/
def readString : ReadState → List Char → List Char → Option (List Char × List Char)
  | _, _, [] => none
  | .text, acc, c :: rest =>
    if c.toNat = 0x22 then some (acc, rest)
    else if c.toNat = 0x5C then readString .escape acc rest
    else if c.toNat < 0x20 then none
    else readString .text (acc ++ [c]) rest
  | .escape, acc, c :: rest =>
    if c.toNat = 0x75 then readString (.hex 4 0) acc rest
    else
      match simpleEscape c with
      | some d => readString .text (acc ++ [d]) rest
      | none => none
  | .hex left v, acc, c :: rest =>
    match hexValue c with
    | none => none
    | some d =>
      if left ≤ 1 then
        if 0xD800 ≤ 16 * v + d ∧ 16 * v + d ≤ 0xDFFF then none
        else readString .text (acc ++ [Char.ofNat (16 * v + d)]) rest
      else readString (.hex (left - 1) (16 * v + d)) acc rest

/-- Decode a request body as the claim words it: the JSON text (without
insignificant white space) of an object whose single member is `message`, a
string; the result is that string.  This follows RFC 8259 and the claim, not the
script, and is what `JSON.stringify` is compared with. -/
def readMessageObject (body : String) : Option String :=
  match body.data with
  | a :: b :: rest =>
    if a.toNat = 0x7B ∧ b.toNat = 0x22 then
      match readString .text [] rest with
      | some (key, c :: d :: rest2) =>
        if key = "message".data ∧ c.toNat = 0x3A ∧ d.toNat = 0x22 then
          match readString .text [] rest2 with
          | some (value, [z]) => if z.toNat = 0x7D then some (String.mk value) else none
          | _ => none
        else none
      | _ => none
    else none
  | _ => none

/-! ## The page -/

/-- A DOM node: an element with its class name, its other attributes and its
children, or the nodes that assigning `html` to `innerHTML` yields. -/
inductive Node where
  | element (tag : String) (className : String) (attributes : List (String × String))
      (children : List Node)
  | markup (html : String)
deriving Repr

/-- A call of `fetch`. -/
structure Request where
  url : String
  method : String
  headers : List (String × String)
  body : Option String
deriving DecidableEq, Repr

/-- The state the script reads and writes: `userInput.value`, the children of
`chatWindow` and of `imageContainer`, and the requests issued so far, oldest
first. -/
structure Page where
  userInput : String
  chatWindow : List Node
  imageContainer : List Node
  network : List Request
deriving Repr

/-- The submit event, of which the script only touches the default action. -/
structure Event where
  defaultPrevented : Bool
deriving DecidableEq, Repr

/-- How a function body ends: normally, or by a thrown exception; either way with
the page as the body left it. -/
inductive Completion where
  | normal (page : Page)
  | throw (page : Page)
deriving Repr

/-- The page a completion leaves. -/
def Completion.page : Completion → Page
  | .normal p => p
  | .throw p => p

/-- Whether the completion is a thrown exception. -/
def Completion.threw : Completion → Bool
  | .normal _ => false
  | .throw _ => true

/-- The libraries the script calls.  `marked.parse` returns a string for a string
source; what it does with another argument (it may throw: `none`) depends on its
version and options.  `DOMPurify.sanitize` maps a string to a string. -/
structure Libs where
  parseString : String → String
  parseOther : JSValue → Option String
  sanitize : String → String

/-- The call `marked.parse(content)`; `none` when it throws. -/
def Libs.markedParse (L : Libs) : JSValue → Option String
  | .string s => some (L.parseString s)
  | v => L.parseOther v

/-- The `div` that `appendMessage` builds: class `msg <sender>`, holding one
`div` of class `msg-text` whose `innerHTML` is `body`. -/
def messageNode (sender : String) (body : String) : Node :=
  .element "div" ("msg " ++ sender) [] [.element "div" "msg-text" [] [.markup body]]

/-- The `img` element the response handler builds. -/
def imageNode (src : String) : Node :=
  .element "img" "" [("src", src), ("alt", "Simulation Chart")] []

/-- The function `appendMessage(content, sender)`. -/
def appendMessage (L : Libs) (content : JSValue) (sender : String) (p : Page) : Completion :=
  match L.markedParse content with
  | none => .throw p
  | some html =>
    .normal { p with chatWindow := p.chatWindow ++ [messageNode sender (L.sanitize html)] }

/-- The request `fetch("/chat", ...)` of the submit handler. -/
def chatRequest (text : String) : Request :=
  { url := "/chat", method := "POST", headers := [("Content-Type", "application/json")],
    body := some (JSON.stringify text) }

/-- The request `fetch("/reset", { method: "POST" })`. -/
def resetRequest : Request :=
  { url := "/reset", method := "POST", headers := [], body := none }

/-- The handler `chatForm.onsubmit`, up to its return: the promise callbacks run
later, see `chatSettled`. -/
def chatForm.onsubmit (L : Libs) (e : Event) (p : Page) : Event × Completion :=
  let e1 : Event := { e with defaultPrevented := true }
  let text := trim p.userInput
  if text == "" then (e1, .normal p)
  else
    match appendMessage L (.string text) "user" p with
    | .throw p1 => (e1, .throw p1)
    | .normal p1 =>
      let p2 := { p1 with userInput := "" }
      let p3 := { p2 with imageContainer := [] }
      (e1, .normal { p3 with network := p3.network ++ [chatRequest text] })

/-- How the chain `fetch(...).then(response => response.json())` settles: `fetch`
rejects, `response.json()` rejects (the body is not JSON), or the body decodes
to `data`. -/
inductive Settlement where
  | rejected
  | notJson
  | json (data : JSValue)
deriving Repr

/-- The callback `data => { ... }` of the `/chat` chain. -/
def chatThen (L : Libs) (data : JSValue) (p : Page) : Completion :=
  match getProperty data "reply" with
  | none => .throw p
  | some reply =>
    match appendMessage L reply "bot" p with
    | .throw p1 => .throw p1
    | .normal p1 =>
      let p2 := { p1 with imageContainer := [] }
      match getProperty data "image" with
      | none => .throw p2
      | some image =>
        if toBoolean image then
          match toStringJS image with
          | none => .throw p2
          | some s =>
            .normal { p2 with
              imageContainer := p2.imageContainer ++ [imageNode ("data:image/png;base64," ++ s)] }
        else .normal p2

/-- The callback of `.catch(() => { ... })` of the `/chat` chain. -/
def chatCatch (L : Libs) (p : Page) : Completion :=
  appendMessage L (.string "Error: Unable to connect to the server.") "bot" p

/-- The `/chat` promise chain once `fetch` has settled: `.then(data => ...)`
followed by `.catch(...)`, which also receives what the first callback throws. -/
def chatSettled (L : Libs) (s : Settlement) (p : Page) : Completion :=
  match s with
  | .rejected => chatCatch L p
  | .notJson => chatCatch L p
  | .json data =>
    match chatThen L data p with
    | .normal p1 => .normal p1
    | .throw p1 => chatCatch L p1

/-- The handler `resetBtn.onclick`, up to its return. -/
def resetBtn.onclick (p : Page) : Completion :=
  .normal { p with network := p.network ++ [resetRequest] }

/-- The callback `data => { ... }` of the `/reset` chain. -/
def resetThen (L : Libs) (data : JSValue) (p : Page) : Completion :=
  let p1 := { p with chatWindow := [] }
  let p2 := { p1 with imageContainer := [] }
  match getProperty data "reply" with
  | none => .throw p2
  | some reply => appendMessage L reply "bot" p2

/-- The `/reset` promise chain once `fetch` has settled; it has no `catch`, so a
rejection stays unhandled and the page is untouched. -/
def resetSettled (L : Libs) (s : Settlement) (p : Page) : Completion :=
  match s with
  | .rejected => .throw p
  | .notJson => .throw p
  | .json data => resetThen L data p

/-- What can happen to the page: the user edits the input field, submits the
form or clicks the reset button, or one of the two promise chains settles. -/
inductive Action where
  | edit (value : String)
  | submit
  | chatSettled (s : Settlement)
  | resetClick
  | resetSettled (s : Settlement)
deriving Repr

/-- One step of the page. -/
def step (L : Libs) (a : Action) (p : Page) : Page :=
  match a with
  | .edit value => { p with userInput := value }
  | .submit => (chatForm.onsubmit L { defaultPrevented := false } p).2.page
  | .chatSettled s => (chatSettled L s p).page
  | .resetClick => (resetBtn.onclick p).page
  | .resetSettled s => (resetSettled L s p).page

/-- A sequence of steps, first action first. -/
def run (L : Libs) (as : List Action) (p : Page) : Page :=
  as.foldl (fun q a => step L a q) p

/-- Whether an action is the user acting on a control that has a handler. -/
def Action.isUserAction : Action → Bool
  | .submit => true
  | .resetClick => true
  | _ => false

/-- A node is a message that `appendMessage` rendered: its body is
`DOMPurify.sanitize(marked.parse(content))` for some content. -/
def Rendered (L : Libs) (n : Node) : Prop :=
  ∃ content sender html, L.markedParse content = some html ∧ n = messageNode sender (L.sanitize html)

/-- Every message of the window (a `div` holding one `div` of class `msg-text`)
has a body that is an output of the sanitizer. -/
def SanitizedBodies (L : Libs) (window : List Node) : Prop :=
  ∀ n ∈ window, ∀ cls body,
    n = Node.element "div" cls [] [Node.element "div" "msg-text" [] [Node.markup body]] →
    ∃ html, body = L.sanitize html

/-- Libraries for evaluating the script on concrete inputs: `marked.parse` wraps
a string in a paragraph and throws on anything else, `DOMPurify.sanitize` drops
the character U+0000. -/
def demoLibs : Libs :=
  { parseString := fun s => "<p>" ++ s ++ "</p>\n",
    parseOther := fun _ => none,
    sanitize := fun s => String.mk (s.data.filter (fun c => c != Char.ofNat 0)) }

/-- A page for evaluating the script on concrete inputs: one earlier message in
the chat window, an earlier image, and `  hello ` typed into the input field. -/
def demoPage : Page :=
  { userInput := "  hello ",
    chatWindow := [messageNode "bot" "<p>Welcome</p>\n"],
    imageContainer := [imageNode "data:image/png;base64,AAAA"],
    network := [] }

/-- The demo page with only white space typed into the input field. -/
def blankPage : Page :=
  { demoPage with userInput := " \t\n" }

/-- A decoded `/chat` response with a reply and an image. -/
def demoResponse : JSValue :=
  .object [("reply", .string "Here is the chart."), ("image", .string "iVBORw0KGgo=")]

/-- A decoded response whose `image` is an object with its own `toString` entry,
the body `{"reply": "Done.", "image": {"toString": 1}}`. -/
def oddImageResponse : JSValue :=
  .object [("reply", .string "Done."),
    ("image", .object [("toString", .number { isZero := false, text := "1" })])]

/-- A decoded response whose `image` is an empty array, the body
`{"reply": "ok", "image": []}`. -/
def emptyArrayImageResponse : JSValue :=
  .object [("reply", .string "ok"), ("image", .array [])]

/-- A decoded response whose `image` is `false`, the body
`{"reply": "ok", "image": false}`. -/
def falseImageResponse : JSValue :=
  .object [("reply", .string "ok"), ("image", .bool false)]

/-! ## Facts about `trim` -/

theorem trimChars_eq_rdropWhile (cs : List Char) :
    trimChars cs = (cs.dropWhile isWhiteSpace).rdropWhile isWhiteSpace := rfl

theorem trimChars_eq_nil_iff (cs : List Char) :
    trimChars cs = [] ↔ ∀ c ∈ cs, isWhiteSpace c = true := by
  rw [trimChars_eq_rdropWhile, List.rdropWhile_eq_nil_iff]
  constructor
  · intro h
    have h2 : cs.dropWhile isWhiteSpace = [] := by
      by_contra hne
      have := List.head_dropWhile_not isWhiteSpace cs hne
      have hmem := h _ (List.head_mem hne)
      simp [hmem] at this
    exact List.dropWhile_eq_nil_iff.mp h2
  · intro h x hx
    exact h x ((List.dropWhile_sublist isWhiteSpace).subset hx)

theorem trimChars_split (cs : List Char) :
    ∃ pre post, cs = pre ++ trimChars cs ++ post ∧
      (∀ c ∈ pre, isWhiteSpace c = true) ∧ (∀ c ∈ post, isWhiteSpace c = true) := by
  refine ⟨cs.takeWhile isWhiteSpace, (cs.dropWhile isWhiteSpace).rtakeWhile isWhiteSpace, ?_, ?_, ?_⟩
  · have h1 : (cs.dropWhile isWhiteSpace).rdropWhile isWhiteSpace ++
        (cs.dropWhile isWhiteSpace).rtakeWhile isWhiteSpace = cs.dropWhile isWhiteSpace := by
      unfold List.rdropWhile List.rtakeWhile
      rw [← List.reverse_append, List.takeWhile_append_dropWhile, List.reverse_reverse]
    rw [trimChars_eq_rdropWhile, List.append_assoc, h1, List.takeWhile_append_dropWhile]
  · intro c hc
    exact List.mem_takeWhile_imp hc
  · intro c hc
    exact List.mem_rtakeWhile_imp hc

theorem trimChars_head (cs : List Char) (c : Char) (h : (trimChars cs).head? = some c) :
    isWhiteSpace c = false := by
  rw [trimChars_eq_rdropWhile] at h
  obtain ⟨t, ht⟩ := List.rdropWhile_prefix isWhiteSpace (l := cs.dropWhile isWhiteSpace)
  have hne : cs.dropWhile isWhiteSpace ≠ [] := by
    intro h0
    rw [h0] at h
    simp at h
  have hh := List.head_dropWhile_not isWhiteSpace cs hne
  have : (cs.dropWhile isWhiteSpace).head? = some c := by
    rw [← ht, List.head?_append, h]
    rfl
  rw [List.head?_eq_head hne] at this
  simp only [Option.some.injEq] at this
  rw [this] at hh
  simpa using hh

theorem trimChars_getLast (cs : List Char) (c : Char) (h : (trimChars cs).getLast? = some c) :
    isWhiteSpace c = false := by
  rw [trimChars_eq_rdropWhile] at h
  have hne : (cs.dropWhile isWhiteSpace).rdropWhile isWhiteSpace ≠ [] := by
    intro h0
    rw [h0] at h
    simp at h
  have hh := List.rdropWhile_last_not isWhiteSpace (cs.dropWhile isWhiteSpace) hne
  rw [List.getLast?_eq_getLast _ hne] at h
  simp only [Option.some.injEq] at h
  rw [h] at hh
  simpa using hh

theorem trim_eq_empty_iff (s : String) :
    trim s = "" ↔ ∀ c ∈ s.data, isWhiteSpace c = true := by
  rw [← trimChars_eq_nil_iff]
  unfold trim
  constructor
  · intro h
    have := congrArg String.data h
    simpa using this
  · intro h
    rw [h]

theorem trim_ne_empty_of_nonblank (s : String)
    (h : ∃ c ∈ s.data, isWhiteSpace c = false) : trim s ≠ "" := by
  intro h1
  obtain ⟨c, hc, hw⟩ := h
  have := (trim_eq_empty_iff _).mp h1 c hc
  rw [hw] at this
  exact Bool.noConfusion this

/-! ## `JSON.stringify` against a JSON reader -/

theorem readString_quoteChar (c : Char) (acc tail : List Char) :
    readString .text acc (quoteChar c ++ tail) = readString .text (acc ++ [c]) tail := by
  have hc : c = Char.ofNat c.toNat := (Char.ofNat_toNat c).symm
  by_cases hlt : c.toNat < 0x20
  · generalize c.toNat = n at hc hlt
    subst hc
    interval_cases n <;> rfl
  · by_cases h22 : c.toNat = 0x22
    · rw [hc, h22]; rfl
    · by_cases h5c : c.toNat = 0x5C
      · rw [hc, h5c]; rfl
      · have e1 : quoteChar c = [c] := by
          unfold quoteChar
          simp only
          rw [if_neg (by omega), if_neg (by omega), if_neg (by omega), if_neg (by omega),
            if_neg (by omega), if_neg h22, if_neg h5c, if_neg hlt]
        rw [e1]
        show readString .text acc (c :: tail) = _
        rw [readString, if_neg h22, if_neg h5c, if_neg hlt]

theorem readString_quoted (s acc tail : List Char) :
    readString .text acc (s.flatMap quoteChar ++ Char.ofNat 0x22 :: tail) = some (acc ++ s, tail) := by
  induction s generalizing acc with
  | nil => simp [readString]
  | cons c s ih =>
    rw [List.flatMap_cons, List.append_assoc, readString_quoteChar, ih]
    simp

theorem stringify_data (text : String) :
    (JSON.stringify text).data =
      Char.ofNat 0x7B :: Char.ofNat 0x22 ::
        ("message".data.flatMap quoteChar ++ Char.ofNat 0x22 :: Char.ofNat 0x3A :: Char.ofNat 0x22 ::
          (text.data.flatMap quoteChar ++ Char.ofNat 0x22 :: [Char.ofNat 0x7D])) := by
  simp [JSON.stringify, quoteJSONString, String.data_append]

theorem readMessageObject_stringify (text : String) :
    readMessageObject (JSON.stringify text) = some text := by
  unfold readMessageObject
  rw [stringify_data]
  simp only [readString_quoted]
  simp

/-! ## The submit handler -/

theorem appendMessage_string (L : Libs) (s sender : String) (p : Page) :
    appendMessage L (.string s) sender p =
      .normal { p with chatWindow := p.chatWindow ++ [messageNode sender (L.sanitize (L.parseString s))] } :=
  rfl

theorem onsubmit_blank (L : Libs) (e : Event) (p : Page) (h : trim p.userInput = "") :
    chatForm.onsubmit L e p = ({ defaultPrevented := true }, .normal p) := by
  simp [chatForm.onsubmit, h]

theorem onsubmit_nonblank (L : Libs) (e : Event) (p : Page) (h : trim p.userInput ≠ "") :
    chatForm.onsubmit L e p = ({ defaultPrevented := true },
      .normal { userInput := "",
                chatWindow := p.chatWindow ++
                  [messageNode "user" (L.sanitize (L.parseString (trim p.userInput)))],
                imageContainer := [],
                network := p.network ++ [chatRequest (trim p.userInput)] }) := by
  simp [chatForm.onsubmit, h, appendMessage_string]

/-- C9: when the input value is empty or consists only of white space, the submit
handler returns normally with the page exactly as it was: nothing is appended to
the chat window, the input field keeps its value, the image container keeps its
content and no request is issued. -/
theorem blank_submit_changes_nothing (L : Libs) (e : Event) (p : Page)
    (h : ∀ c ∈ p.userInput.data, isWhiteSpace c = true) :
    (chatForm.onsubmit L e p).2 = .normal p ∧
    (chatForm.onsubmit L e p).2.page.chatWindow = p.chatWindow ∧
    (chatForm.onsubmit L e p).2.page.userInput = p.userInput ∧
    (chatForm.onsubmit L e p).2.page.imageContainer = p.imageContainer ∧
    (chatForm.onsubmit L e p).2.page.network = p.network := by
  have h0 : trim p.userInput = "" := (trim_eq_empty_iff _).mpr h
  rw [onsubmit_blank L e p h0]
  exact ⟨rfl, rfl, rfl, rfl, rfl⟩

/-- The blank-input case of the submit handler on `blankPage`, whose input is a
space, a tab and a line feed. -/
theorem blank_submit_changes_nothing_witness :
    (∀ c ∈ blankPage.userInput.data, isWhiteSpace c = true) ∧
    (chatForm.onsubmit demoLibs { defaultPrevented := false } blankPage).2.page.userInput = " \t\n" ∧
    (chatForm.onsubmit demoLibs { defaultPrevented := false } blankPage).2.page.network = [] :=
  ⟨by decide,
   (blank_submit_changes_nothing demoLibs { defaultPrevented := false } blankPage (by decide)).2.2.1,
   (blank_submit_changes_nothing demoLibs { defaultPrevented := false } blankPage (by decide)).2.2.2.2⟩

/-- C8: for every input that is not blank, the submit handler returns normally
with the input field empty, the image container empty and the chat window equal
to its previous content followed by exactly one message of class `msg user`
whose body renders the trimmed input. -/
theorem submit_view (L : Libs) (e : Event) (p : Page)
    (h : ∃ c ∈ p.userInput.data, isWhiteSpace c = false) :
    ∃ q, (chatForm.onsubmit L e p).2 = .normal q ∧
      q.userInput = "" ∧
      q.imageContainer = [] ∧
      q.chatWindow = p.chatWindow ++
        [Node.element "div" "msg user" []
          [Node.element "div" "msg-text" []
            [Node.markup (L.sanitize (L.parseString (trim p.userInput)))]]] := by
  rw [onsubmit_nonblank L e p (trim_ne_empty_of_nonblank _ h)]
  exact ⟨_, rfl, rfl, rfl, rfl⟩

/-- The view after a submit on `demoPage`, whose input is `  hello `. -/
theorem submit_view_witness :
    (∃ c ∈ demoPage.userInput.data, isWhiteSpace c = false) ∧
    ∃ q, (chatForm.onsubmit demoLibs { defaultPrevented := false } demoPage).2 = .normal q ∧
      q.userInput = "" ∧
      q.imageContainer = [] ∧
      q.chatWindow = demoPage.chatWindow ++
        [Node.element "div" "msg user" []
          [Node.element "div" "msg-text" []
            [Node.markup (demoLibs.sanitize (demoLibs.parseString (trim demoPage.userInput)))]]] :=
  ⟨by decide, submit_view demoLibs { defaultPrevented := false } demoPage (by decide)⟩

/-- C1: for every input value whose trimmed form is non-empty, the submit handler
issues a request to `/chat` with method POST, the header
`Content-Type: application/json` and a body that is the JSON text of an object
whose single member `message` is the trimmed input: the input value without the
white space before and after it, which neither begins nor ends with white
space; when trimming changes the value, the untrimmed value is not what is
sent. -/
theorem submit_sends_trimmed_message (L : Libs) (e : Event) (p : Page)
    (h : trim p.userInput ≠ "") :
    ∃ body,
      (chatForm.onsubmit L e p).2.page.network = p.network ++
        [{ url := "/chat", method := "POST",
           headers := [("Content-Type", "application/json")], body := some body }] ∧
      body = JSON.stringify (trim p.userInput) ∧
      readMessageObject body = some (trim p.userInput) ∧
      (∃ before after, p.userInput.data = before ++ (trim p.userInput).data ++ after ∧
        (∀ c ∈ before, isWhiteSpace c = true) ∧ (∀ c ∈ after, isWhiteSpace c = true)) ∧
      (∀ c, (trim p.userInput).data.head? = some c → isWhiteSpace c = false) ∧
      (∀ c, (trim p.userInput).data.getLast? = some c → isWhiteSpace c = false) ∧
      (trim p.userInput ≠ p.userInput → readMessageObject body ≠ some p.userInput) := by
  refine ⟨JSON.stringify (trim p.userInput), ?_, rfl, readMessageObject_stringify _,
    trimChars_split _, trimChars_head _, trimChars_getLast _, ?_⟩
  · rw [onsubmit_nonblank L e p h]
    rfl
  · intro hne heq
    rw [readMessageObject_stringify] at heq
    exact hne (Option.some.inj heq)

/-- The request a submit on `demoPage` issues: the message is `hello`. -/
theorem submit_sends_trimmed_message_witness :
    trim demoPage.userInput ≠ "" ∧ trim demoPage.userInput = "hello" ∧
    JSON.stringify "hello" = "\x7b\"message\":\"hello\"\x7d" ∧
    ∃ body,
      (chatForm.onsubmit demoLibs { defaultPrevented := false } demoPage).2.page.network =
        demoPage.network ++
          [{ url := "/chat", method := "POST",
             headers := [("Content-Type", "application/json")], body := some body }] ∧
      body = JSON.stringify (trim demoPage.userInput) :=
  ⟨by decide, by decide, by decide,
    (submit_sends_trimmed_message demoLibs { defaultPrevented := false } demoPage (by decide)).imp
      (fun _ hb => ⟨hb.1, hb.2.1⟩)⟩

/-! ## The response callbacks, case by case -/

theorem getProperty_total (data : JSValue) (k1 k2 : String) (v : JSValue)
    (h : getProperty data k1 = some v) : ∃ w, getProperty data k2 = some w := by
  cases data with
  | undefined => simp [getProperty] at h
  | null => simp [getProperty] at h
  | bool b => exact ⟨_, rfl⟩
  | number n => exact ⟨_, rfl⟩
  | string s => exact ⟨_, rfl⟩
  | array items => exact ⟨_, rfl⟩
  | object fields =>
    unfold getProperty
    simp only
    cases fields.find? (fun f => f.1 == k2) with
    | none => exact ⟨_, rfl⟩
    | some f => exact ⟨_, rfl⟩

theorem appendMessage_throw (L : Libs) (content : JSValue) (sender : String) (p : Page)
    (h : L.markedParse content = none) : appendMessage L content sender p = .throw p := by
  simp [appendMessage, h]

theorem appendMessage_normal (L : Libs) (content : JSValue) (sender : String) (p : Page)
    (html : String) (h : L.markedParse content = some html) :
    appendMessage L content sender p =
      .normal { p with chatWindow := p.chatWindow ++ [messageNode sender (L.sanitize html)] } := by
  simp [appendMessage, h]

theorem chatThen_no_reply (L : Libs) (data : JSValue) (p : Page)
    (h : getProperty data "reply" = none) : chatThen L data p = .throw p := by
  simp [chatThen, h]

theorem chatThen_parse_throws (L : Libs) (data reply : JSValue) (p : Page)
    (h : getProperty data "reply" = some reply) (hp : L.markedParse reply = none) :
    chatThen L data p = .throw p := by
  simp [chatThen, h, appendMessage, hp]

theorem chatThen_no_image (L : Libs) (data reply image : JSValue) (p : Page) (html : String)
    (h : getProperty data "reply" = some reply) (hp : L.markedParse reply = some html)
    (hi : getProperty data "image" = some image) (hb : toBoolean image = false) :
    chatThen L data p =
      .normal { p with chatWindow := p.chatWindow ++ [messageNode "bot" (L.sanitize html)],
                       imageContainer := [] } := by
  simp [chatThen, h, appendMessage, hp, hi, hb]

theorem chatThen_image_throws (L : Libs) (data reply image : JSValue) (p : Page) (html : String)
    (h : getProperty data "reply" = some reply) (hp : L.markedParse reply = some html)
    (hi : getProperty data "image" = some image) (hb : toBoolean image = true)
    (ht : toStringJS image = none) :
    chatThen L data p =
      .throw { p with chatWindow := p.chatWindow ++ [messageNode "bot" (L.sanitize html)],
                      imageContainer := [] } := by
  simp [chatThen, h, appendMessage, hp, hi, hb, ht]

theorem chatThen_image (L : Libs) (data reply image : JSValue) (p : Page) (html text : String)
    (h : getProperty data "reply" = some reply) (hp : L.markedParse reply = some html)
    (hi : getProperty data "image" = some image) (hb : toBoolean image = true)
    (ht : toStringJS image = some text) :
    chatThen L data p =
      .normal { p with chatWindow := p.chatWindow ++ [messageNode "bot" (L.sanitize html)],
                       imageContainer := [imageNode ("data:image/png;base64," ++ text)] } := by
  simp [chatThen, h, appendMessage, hp, hi, hb, ht]

/-- The ways the `/chat` response callback can end. -/
theorem chatThen_cases (L : Libs) (data : JSValue) (p : Page) :
    (getProperty data "reply" = none ∧ chatThen L data p = .throw p) ∨
    (∃ reply, getProperty data "reply" = some reply ∧ L.markedParse reply = none ∧
      chatThen L data p = .throw p) ∨
    (∃ reply html image, getProperty data "reply" = some reply ∧
      L.markedParse reply = some html ∧ getProperty data "image" = some image ∧
      toBoolean image = false ∧
      chatThen L data p =
        .normal { p with chatWindow := p.chatWindow ++ [messageNode "bot" (L.sanitize html)],
                         imageContainer := [] }) ∨
    (∃ reply html image, getProperty data "reply" = some reply ∧
      L.markedParse reply = some html ∧ getProperty data "image" = some image ∧
      toBoolean image = true ∧ toStringJS image = none ∧
      chatThen L data p =
        .throw { p with chatWindow := p.chatWindow ++ [messageNode "bot" (L.sanitize html)],
                        imageContainer := [] }) ∨
    (∃ reply html image text, getProperty data "reply" = some reply ∧
      L.markedParse reply = some html ∧ getProperty data "image" = some image ∧
      toBoolean image = true ∧ toStringJS image = some text ∧
      chatThen L data p =
        .normal { p with chatWindow := p.chatWindow ++ [messageNode "bot" (L.sanitize html)],
                         imageContainer := [imageNode ("data:image/png;base64," ++ text)] }) := by
  cases h : getProperty data "reply" with
  | none => exact Or.inl ⟨rfl, chatThen_no_reply L data p h⟩
  | some reply =>
    cases hp : L.markedParse reply with
    | none => exact Or.inr (Or.inl ⟨reply, rfl, hp, chatThen_parse_throws L data reply p h hp⟩)
    | some html =>
      obtain ⟨image, hi⟩ := getProperty_total data "reply" "image" reply h
      cases hb : toBoolean image with
      | false =>
        exact Or.inr (Or.inr (Or.inl ⟨reply, html, image, rfl, hp, hi, hb,
          chatThen_no_image L data reply image p html h hp hi hb⟩))
      | true =>
        cases ht : toStringJS image with
        | none =>
          exact Or.inr (Or.inr (Or.inr (Or.inl ⟨reply, html, image, rfl, hp, hi, hb, ht,
            chatThen_image_throws L data reply image p html h hp hi hb ht⟩)))
        | some text =>
          exact Or.inr (Or.inr (Or.inr (Or.inr ⟨reply, html, image, text, rfl, hp, hi, hb, ht,
            chatThen_image L data reply image p html text h hp hi hb ht⟩)))

theorem chatCatch_eq (L : Libs) (p : Page) :
    chatCatch L p =
      .normal { p with chatWindow := p.chatWindow ++
        [messageNode "bot"
          (L.sanitize (L.parseString "Error: Unable to connect to the server."))] } :=
  rfl

theorem chatSettled_of_normal (L : Libs) (data : JSValue) (p q : Page)
    (h : chatThen L data p = .normal q) : chatSettled L (.json data) p = .normal q := by
  simp [chatSettled, h]

theorem chatSettled_of_throw (L : Libs) (data : JSValue) (p q : Page)
    (h : chatThen L data p = .throw q) : chatSettled L (.json data) p = chatCatch L q := by
  simp [chatSettled, h]

/-! ## Requests -/

theorem chatThen_network (L : Libs) (data : JSValue) (p : Page) :
    (chatThen L data p).page.network = p.network := by
  rcases chatThen_cases L data p with ⟨_, h⟩ | ⟨_, _, _, h⟩ | ⟨_, _, _, _, _, _, _, h⟩ |
    ⟨_, _, _, _, _, _, _, _, h⟩ | ⟨_, _, _, _, _, _, _, _, _, h⟩ <;> rw [h] <;> rfl

theorem chatSettled_network (L : Libs) (s : Settlement) (p : Page) :
    (chatSettled L s p).page.network = p.network := by
  cases s with
  | rejected => rfl
  | notJson => rfl
  | json data =>
    have hthen := chatThen_network L data p
    cases h : chatThen L data p with
    | normal q =>
      rw [chatSettled_of_normal L data p q h]
      rw [h] at hthen
      exact hthen
    | throw q =>
      rw [chatSettled_of_throw L data p q h, chatCatch_eq]
      rw [h] at hthen
      exact hthen

theorem resetThen_no_reply (L : Libs) (data : JSValue) (p : Page)
    (h : getProperty data "reply" = none) :
    resetThen L data p = .throw { p with chatWindow := [], imageContainer := [] } := by
  simp [resetThen, h]

theorem resetThen_parse_throws (L : Libs) (data reply : JSValue) (p : Page)
    (h : getProperty data "reply" = some reply) (hp : L.markedParse reply = none) :
    resetThen L data p = .throw { p with chatWindow := [], imageContainer := [] } := by
  simp [resetThen, h, appendMessage, hp]

theorem resetThen_reply (L : Libs) (data reply : JSValue) (p : Page) (html : String)
    (h : getProperty data "reply" = some reply) (hp : L.markedParse reply = some html) :
    resetThen L data p =
      .normal { p with chatWindow := [messageNode "bot" (L.sanitize html)],
                       imageContainer := [] } := by
  simp [resetThen, h, appendMessage, hp]

/-- The ways the `/reset` response callback can end. -/
theorem resetThen_cases (L : Libs) (data : JSValue) (p : Page) :
    resetThen L data p = .throw { p with chatWindow := [], imageContainer := [] } ∨
    ∃ reply html, getProperty data "reply" = some reply ∧ L.markedParse reply = some html ∧
      resetThen L data p =
        .normal { p with chatWindow := [messageNode "bot" (L.sanitize html)],
                         imageContainer := [] } := by
  cases h : getProperty data "reply" with
  | none => exact Or.inl (resetThen_no_reply L data p h)
  | some reply =>
    cases hp : L.markedParse reply with
    | none => exact Or.inl (resetThen_parse_throws L data reply p h hp)
    | some html => exact Or.inr ⟨reply, html, rfl, hp, resetThen_reply L data reply p html h hp⟩

theorem resetSettled_network (L : Libs) (s : Settlement) (p : Page) :
    (resetSettled L s p).page.network = p.network := by
  cases s with
  | rejected => rfl
  | notJson => rfl
  | json data =>
    show (resetThen L data p).page.network = p.network
    rcases resetThen_cases L data p with h | ⟨_, _, _, _, h⟩ <;> rw [h] <;> rfl

theorem onsubmit_network (L : Libs) (e : Event) (p : Page) :
    (chatForm.onsubmit L e p).2.page.network =
      p.network ++ (if trim p.userInput = "" then [] else [chatRequest (trim p.userInput)]) := by
  by_cases h : trim p.userInput = ""
  · rw [onsubmit_blank L e p h, if_pos h]
    simp [Completion.page]
  · rw [onsubmit_nonblank L e p h, if_neg h]
    rfl

theorem step_network_length (L : Libs) (a : Action) (p : Page) :
    (step L a p).network.length ≤ p.network.length + (if a.isUserAction then 1 else 0) := by
  cases a with
  | edit value => simp [step, Action.isUserAction]
  | submit =>
    simp only [step, Action.isUserAction, onsubmit_network]
    split <;> simp
  | chatSettled s => simp [step, Action.isUserAction, chatSettled_network]
  | resetClick => simp [step, Action.isUserAction, resetBtn.onclick, Completion.page]
  | resetSettled s => simp [step, Action.isUserAction, resetSettled_network]

theorem run_network_length (L : Libs) (as : List Action) (p : Page) :
    (run L as p).network.length ≤ p.network.length + (as.filter Action.isUserAction).length := by
  induction as generalizing p with
  | nil => simp [run]
  | cons a as ih =>
    have h1 := step_network_length L a p
    have h2 := ih (step L a p)
    simp only [run, List.foldl_cons] at h2 ⊢
    by_cases ha : a.isUserAction = true
    · simp only [ha, if_true] at h1
      rw [List.filter_cons_of_pos ha, List.length_cons]
      omega
    · simp only [ha] at h1
      rw [List.filter_cons_of_neg ha]
      simp at h1
      omega

/-- C5: one invocation of the submit handler issues exactly one request, to
`/chat`, when the trimmed input is non-empty and none when it is empty; one
invocation of the reset handler issues exactly one request, to `/reset`; no
promise callback issues a request, however its chain settled, so nothing is
retried after a failure; and along any sequence of events the number of
requests grows by at most one per user action. -/
theorem one_request_per_action (L : Libs) (e : Event) (p : Page) (s : Settlement)
    (as : List Action) :
    (chatForm.onsubmit L e p).2.page.network =
      p.network ++ (if trim p.userInput = "" then [] else [chatRequest (trim p.userInput)]) ∧
    (chatRequest (trim p.userInput)).url = "/chat" ∧
    (resetBtn.onclick p).page.network = p.network ++ [resetRequest] ∧
    resetRequest.url = "/reset" ∧
    (chatSettled L s p).page.network = p.network ∧
    (resetSettled L s p).page.network = p.network ∧
    (run L as p).network.length ≤ p.network.length + (as.filter Action.isUserAction).length :=
  ⟨onsubmit_network L e p, rfl, rfl, rfl, chatSettled_network L s p, resetSettled_network L s p,
    run_network_length L as p⟩

/-! ## The reset button -/

/-- C4: whatever the page holds when the `/reset` chain delivers a decoded body
with string reply `r`, afterwards the chat window contains exactly one message,
of class `msg bot` rendering `r`, and the image container is empty; in
particular so after a click on the reset button followed by that response. -/
theorem reset_view (L : Libs) (p q : Page) (data : JSValue) (r : String)
    (h : getProperty data "reply" = some (.string r)) :
    resetSettled L (.json data) q =
      .normal { q with
        chatWindow := [Node.element "div" "msg bot" []
          [Node.element "div" "msg-text" [] [Node.markup (L.sanitize (L.parseString r))]]],
        imageContainer := [] } ∧
    (resetSettled L (.json data) (resetBtn.onclick p).page).page.chatWindow =
      [Node.element "div" "msg bot" []
        [Node.element "div" "msg-text" [] [Node.markup (L.sanitize (L.parseString r))]]] ∧
    (resetSettled L (.json data) (resetBtn.onclick p).page).page.imageContainer = [] := by
  have hq : ∀ q : Page, resetSettled L (.json data) q =
      .normal { q with
        chatWindow := [Node.element "div" "msg bot" []
          [Node.element "div" "msg-text" [] [Node.markup (L.sanitize (L.parseString r))]]],
        imageContainer := [] } := fun q =>
    resetThen_reply L data (.string r) q (L.parseString r) h rfl
  refine ⟨hq q, ?_, ?_⟩
  · rw [hq]; rfl
  · rw [hq]; rfl

/-- The view after a reset click on `demoPage` answered by `demoResponse`. -/
theorem reset_view_witness :
    getProperty demoResponse "reply" = some (.string "Here is the chart.") ∧
    (resetSettled demoLibs (.json demoResponse) (resetBtn.onclick demoPage).page).page.chatWindow =
      [Node.element "div" "msg bot" []
        [Node.element "div" "msg-text" [] [Node.markup "<p>Here is the chart.</p>\n"]]] ∧
    (resetSettled demoLibs (.json demoResponse) (resetBtn.onclick demoPage).page).page.imageContainer
      = [] :=
  ⟨rfl, (reset_view demoLibs demoPage demoPage demoResponse "Here is the chart." rfl).2⟩

/-! ## The image container -/

/-- C3 as amended: when the `/chat` response callback handles a decoded body
without throwing, the image container afterwards depends on the `image` field
alone, whatever it held before: it is empty when the field is falsy (missing,
`null`, `false`, zero, the empty string) and holds exactly one `img` when the
field is truthy (a non-empty string, `true`, a non-zero number, any array or
object, even an empty one); the `src` of that `img` is `data:image/png;base64,`
followed by the field converted to a string (for a string field, the field
itself) and its `alt` is `Simulation Chart`; so the container never holds more
than one image. -/
theorem image_after_response (L : Libs) (data : JSValue) (p q : Page)
    (h : chatThen L data p = .normal q) :
    chatSettled L (.json data) p = .normal q ∧
    q.imageContainer.length ≤ 1 ∧
    ∃ image, getProperty data "image" = some image ∧
      ((toBoolean image = false ∧ q.imageContainer = []) ∨
       (toBoolean image = true ∧ ∃ text, toStringJS image = some text ∧
          q.imageContainer =
            [Node.element "img" ""
              [("src", "data:image/png;base64," ++ text), ("alt", "Simulation Chart")] []])) ∧
      (image = .undefined → q.imageContainer = []) ∧
      (image = .null → q.imageContainer = []) ∧
      (∀ s, image = .string s →
        q.imageContainer =
          if s = "" then []
          else [Node.element "img" ""
            [("src", "data:image/png;base64," ++ s), ("alt", "Simulation Chart")] []]) ∧
      q.imageContainer.length = (if toBoolean image = true then 1 else 0) ∧
      (∀ b, image = .bool b → q.imageContainer.length = if b = true then 1 else 0) ∧
      (∀ n, image = .number n → q.imageContainer.length = if n.isZero = true then 0 else 1) ∧
      (∀ items, image = .array items → q.imageContainer.length = 1) ∧
      (∀ fields, image = .object fields → q.imageContainer.length = 1) := by
  refine ⟨chatSettled_of_normal L data p q h, ?_⟩
  rcases chatThen_cases L data p with ⟨_, h1⟩ | ⟨_, _, _, h1⟩ |
    ⟨reply, html, image, _, _, hi, hb, h1⟩ | ⟨_, _, _, _, _, _, _, _, h1⟩ |
    ⟨reply, html, image, text, _, _, hi, hb, ht, h1⟩
  · rw [h1] at h; exact Completion.noConfusion h
  · rw [h1] at h; exact Completion.noConfusion h
  · rw [h1] at h
    have hq := Completion.normal.inj h
    subst hq
    refine ⟨by simp, image, hi, Or.inl ⟨hb, rfl⟩, fun _ => rfl, fun _ => rfl, ?_,
      by simp [hb], ?_, ?_, ?_, ?_⟩
    · intro s hs
      subst hs
      have : s = "" := by simpa [toBoolean] using hb
      simp [this]
    · intro b hs
      subst hs
      have : b = false := by simpa [toBoolean] using hb
      simp [this]
    · intro n hs
      subst hs
      have : n.isZero = true := by simpa [toBoolean] using hb
      simp [this]
    · intro items hs
      subst hs
      simp [toBoolean] at hb
    · intro fields hs
      subst hs
      simp [toBoolean] at hb
  · rw [h1] at h; exact Completion.noConfusion h
  · rw [h1] at h
    have hq := Completion.normal.inj h
    subst hq
    refine ⟨by simp, image, hi, Or.inr ⟨hb, text, ht, rfl⟩, ?_, ?_, ?_,
      by simp [hb], ?_, ?_, ?_, ?_⟩
    · intro hu; subst hu; simp [toBoolean] at hb
    · intro hu; subst hu; simp [toBoolean] at hb
    · intro s hs
      subst hs
      have hne : s ≠ "" := by simpa [toBoolean] using hb
      have hts : text = s := by
        have : toStringJS (.string s) = some s := by simp [toStringJS]
        rw [this] at ht
        exact (Option.some.inj ht).symm
      subst hts
      simp [hne, imageNode]
    · intro b hs
      subst hs
      have : b = true := by simpa [toBoolean] using hb
      simp [this]
    · intro n hs
      subst hs
      have : n.isZero = false := by simpa [toBoolean] using hb
      simp [this]
    · intro items hs
      simp
    · intro fields hs
      simp

/-- The image container after `demoResponse` is handled on `demoPage`: the
earlier image is replaced by the one of the response. -/
theorem image_after_response_witness :
    chatThen demoLibs demoResponse demoPage =
      .normal { demoPage with
        chatWindow := demoPage.chatWindow ++ [messageNode "bot" "<p>Here is the chart.</p>\n"],
        imageContainer := [imageNode "data:image/png;base64,iVBORw0KGgo="] } ∧
    (chatSettled demoLibs (.json demoResponse) demoPage).page.imageContainer =
      [Node.element "img" ""
        [("src", "data:image/png;base64,iVBORw0KGgo="), ("alt", "Simulation Chart")] []] :=
  ⟨rfl, by
    rw [(image_after_response demoLibs demoResponse demoPage _ rfl).1]
    rfl⟩

/-- C3 as stated fails: the body `{"reply": "ok", "image": []}` is handled
without a throw and its `image` field, though present, is empty, yet the image
container ends up holding one `img` (an empty array is truthy and converts to
the empty string); and the body `{"reply": "ok", "image": false}` is handled
without a throw and its `image` field is present and is no empty value, yet the
image container ends up empty. -/
theorem empty_array_image_shows_img :
    getProperty emptyArrayImageResponse "image" = some (.array []) ∧
    chatThen demoLibs emptyArrayImageResponse demoPage =
      .normal { demoPage with
        chatWindow := demoPage.chatWindow ++ [messageNode "bot" "<p>ok</p>\n"],
        imageContainer :=
          [Node.element "img" ""
            [("src", "data:image/png;base64,"), ("alt", "Simulation Chart")] []] } ∧
    (chatSettled demoLibs (.json emptyArrayImageResponse) demoPage).page.imageContainer =
      [Node.element "img" ""
        [("src", "data:image/png;base64,"), ("alt", "Simulation Chart")] []] ∧
    getProperty falseImageResponse "image" = some (.bool false) ∧
    chatThen demoLibs falseImageResponse demoPage =
      .normal { demoPage with
        chatWindow := demoPage.chatWindow ++ [messageNode "bot" "<p>ok</p>\n"],
        imageContainer := [] } ∧
    (chatSettled demoLibs (.json falseImageResponse) demoPage).page.imageContainer = [] :=
  ⟨rfl, rfl, rfl, rfl, rfl, rfl⟩

/-! ## Submit followed by the response -/

/-- C2 as amended: for every prior chat window content, every input that is not
blank and every `/chat` response decoded as JSON with string reply `r` whose
`image` field is falsy or converts to a string (every string, number and boolean
does), a submit followed by that response leaves the chat window equal to its
prior content followed by exactly two messages: one of class `msg user`
rendering the trimmed input, then one of class `msg bot` rendering `r`. -/
theorem submit_then_reply (L : Libs) (e : Event) (p : Page) (data : JSValue) (r : String)
    (hin : ∃ c ∈ p.userInput.data, isWhiteSpace c = false)
    (hr : getProperty data "reply" = some (.string r))
    (hi : ∀ image, getProperty data "image" = some image → toBoolean image = true →
      toStringJS image ≠ none) :
    ∃ q, chatSettled L (.json data) (chatForm.onsubmit L e p).2.page = .normal q ∧
      q.chatWindow = p.chatWindow ++
        [Node.element "div" "msg user" []
          [Node.element "div" "msg-text" []
            [Node.markup (L.sanitize (L.parseString (trim p.userInput)))]],
         Node.element "div" "msg bot" []
          [Node.element "div" "msg-text" [] [Node.markup (L.sanitize (L.parseString r))]]] := by
  obtain ⟨q0, hq0, hw⟩ : ∃ q0 : Page, (chatForm.onsubmit L e p).2.page = q0 ∧
      q0.chatWindow = p.chatWindow ++
        [messageNode "user" (L.sanitize (L.parseString (trim p.userInput)))] :=
    ⟨_, rfl, by rw [onsubmit_nonblank L e p (trim_ne_empty_of_nonblank _ hin)]; rfl⟩
  rw [hq0]
  show ∃ q, chatSettled L (.json data) q0 = .normal q ∧ _
  have hp : L.markedParse (.string r) = some (L.parseString r) := rfl
  obtain ⟨image, hi0⟩ := getProperty_total data "reply" "image" _ hr
  cases hb : toBoolean image with
  | false =>
    refine ⟨_, chatSettled_of_normal L data q0 _
      (chatThen_no_image L data _ image q0 _ hr hp hi0 hb), ?_⟩
    simp [hw, messageNode]
  | true =>
    cases ht : toStringJS image with
    | none => exact absurd ht (hi image hi0 hb)
    | some text =>
      refine ⟨_, chatSettled_of_normal L data q0 _
        (chatThen_image L data _ image q0 _ text hr hp hi0 hb ht), ?_⟩
      simp [hw, messageNode]

/-- A submit on `demoPage` followed by `demoResponse`: two new messages. -/
theorem submit_then_reply_witness :
    (∃ c ∈ demoPage.userInput.data, isWhiteSpace c = false) ∧
    ∃ q, chatSettled demoLibs (.json demoResponse)
        (chatForm.onsubmit demoLibs { defaultPrevented := false } demoPage).2.page = .normal q ∧
      q.chatWindow = demoPage.chatWindow ++
        [Node.element "div" "msg user" []
          [Node.element "div" "msg-text" []
            [Node.markup (demoLibs.sanitize (demoLibs.parseString (trim demoPage.userInput)))]],
         Node.element "div" "msg bot" []
          [Node.element "div" "msg-text" []
            [Node.markup (demoLibs.sanitize (demoLibs.parseString "Here is the chart."))]]] :=
  ⟨by decide,
    submit_then_reply demoLibs { defaultPrevented := false } demoPage demoResponse
      "Here is the chart." (by decide) rfl
      (by
        intro image h _
        have h2 : image = .string "iVBORw0KGgo=" := (Option.some.inj h).symm
        subst h2
        simp [toStringJS])⟩

/-- C2 as stated fails: the body `{"reply": "Done.", "image": {"toString": 1}}`
is received and decoded and has a string reply, yet a submit followed by it
leaves three new messages in the chat window, the last one the connection
error, because converting the image to a string throws after the reply has
been appended. -/
theorem submit_then_reply_three_messages :
    getProperty oddImageResponse "reply" = some (.string "Done.") ∧
    (chatSettled demoLibs (.json oddImageResponse)
        (chatForm.onsubmit demoLibs { defaultPrevented := false } demoPage).2.page).page.chatWindow =
      demoPage.chatWindow ++
        [Node.element "div" "msg user" []
          [Node.element "div" "msg-text" [] [Node.markup "<p>hello</p>\n"]],
         Node.element "div" "msg bot" []
          [Node.element "div" "msg-text" [] [Node.markup "<p>Done.</p>\n"]],
         Node.element "div" "msg bot" []
          [Node.element "div" "msg-text" []
            [Node.markup "<p>Error: Unable to connect to the server.</p>\n"]]] ∧
    (chatSettled demoLibs (.json oddImageResponse)
        (chatForm.onsubmit demoLibs { defaultPrevented := false } demoPage).2.page).page.chatWindow ≠
      demoPage.chatWindow ++
        [Node.element "div" "msg user" []
          [Node.element "div" "msg-text" [] [Node.markup "<p>hello</p>\n"]],
         Node.element "div" "msg bot" []
          [Node.element "div" "msg-text" [] [Node.markup "<p>Done.</p>\n"]]] := by
  refine ⟨rfl, rfl, ?_⟩
  intro h
  have := congrArg List.length h
  revert this
  decide

/-! ## The connection error message -/

/-- C7 as amended: the `catch` callback appends the bot message
`Error: Unable to connect to the server.` exactly when the `/chat` promise chain
rejects, that is when the request is rejected, when the body cannot be decoded
as JSON, or when the response callback throws (reading `reply` from `null`,
`marked.parse` refusing the reply, or the image not converting to a string).
Each time the chat window ends up as its content before the settlement followed
by exactly one such message, preceded by the rendered bot reply in the one case
where the callback throws only after appending it (the image conversion); when
the response callback completes, the `catch` callback does not run and the chat
window gains the rendered bot reply and nothing else. -/
theorem error_message_iff_chain_rejects (L : Libs) (p : Page) (data : JSValue) :
    chatSettled L .rejected p =
      .normal { p with chatWindow := p.chatWindow ++
        [messageNode "bot" (L.sanitize (L.parseString "Error: Unable to connect to the server."))] } ∧
    chatSettled L .notJson p =
      .normal { p with chatWindow := p.chatWindow ++
        [messageNode "bot" (L.sanitize (L.parseString "Error: Unable to connect to the server."))] } ∧
    (∀ q, chatThen L data p = .throw q →
      chatSettled L (.json data) p =
        .normal { q with chatWindow := q.chatWindow ++
          [messageNode "bot"
            (L.sanitize (L.parseString "Error: Unable to connect to the server."))] } ∧
      ((q = p ∧
        chatSettled L (.json data) p =
          .normal { p with chatWindow := p.chatWindow ++
            [messageNode "bot"
              (L.sanitize (L.parseString "Error: Unable to connect to the server."))] }) ∨
       ∃ reply html, getProperty data "reply" = some reply ∧ L.markedParse reply = some html ∧
        q = { p with chatWindow := p.chatWindow ++ [messageNode "bot" (L.sanitize html)],
                     imageContainer := [] } ∧
        chatSettled L (.json data) p =
          .normal { p with
            chatWindow := p.chatWindow ++
              [messageNode "bot" (L.sanitize html),
               messageNode "bot"
                (L.sanitize (L.parseString "Error: Unable to connect to the server."))],
            imageContainer := [] })) ∧
    (∀ q, chatThen L data p = .normal q →
      chatSettled L (.json data) p = .normal q ∧
      q.userInput = p.userInput ∧ q.network = p.network ∧
      ∃ reply html, getProperty data "reply" = some reply ∧ L.markedParse reply = some html ∧
        q.chatWindow = p.chatWindow ++ [messageNode "bot" (L.sanitize html)]) ∧
    ((chatThen L data p).threw = true ↔
      (getProperty data "reply" = none ∨
       (∃ reply, getProperty data "reply" = some reply ∧ L.markedParse reply = none) ∨
       ∃ image, getProperty data "image" = some image ∧ toBoolean image = true ∧
         toStringJS image = none)) := by
  refine ⟨rfl, rfl, ?_, ?_, ?_⟩
  · intro q h
    have hs := chatSettled_of_throw L data p q h
    rw [chatCatch_eq] at hs
    refine ⟨hs, ?_⟩
    rcases chatThen_cases L data p with ⟨_, h1⟩ | ⟨_, _, _, h1⟩ |
      ⟨reply, html, image, hr, hp, _, _, h1⟩ | ⟨reply, html, image, hr, hp, _, _, _, h1⟩ |
      ⟨reply, html, image, text, hr, hp, _, _, _, h1⟩
    · rw [h1] at h
      have hq := Completion.throw.inj h
      subst hq
      exact Or.inl ⟨rfl, hs⟩
    · rw [h1] at h
      have hq := Completion.throw.inj h
      subst hq
      exact Or.inl ⟨rfl, hs⟩
    · rw [h1] at h; exact Completion.noConfusion h
    · rw [h1] at h
      have hq := Completion.throw.inj h
      subst hq
      refine Or.inr ⟨reply, html, hr, hp, rfl, ?_⟩
      rw [hs]
      simp
    · rw [h1] at h; exact Completion.noConfusion h
  · intro q h
    refine ⟨chatSettled_of_normal L data p q h, ?_⟩
    rcases chatThen_cases L data p with ⟨_, h1⟩ | ⟨_, _, _, h1⟩ |
      ⟨reply, html, image, hr, hp, _, _, h1⟩ | ⟨_, _, _, _, _, _, _, _, h1⟩ |
      ⟨reply, html, image, text, hr, hp, _, _, _, h1⟩
    · rw [h1] at h; exact Completion.noConfusion h
    · rw [h1] at h; exact Completion.noConfusion h
    · rw [h1] at h
      have hq := Completion.normal.inj h
      subst hq
      exact ⟨rfl, rfl, reply, html, hr, hp, rfl⟩
    · rw [h1] at h; exact Completion.noConfusion h
    · rw [h1] at h
      have hq := Completion.normal.inj h
      subst hq
      exact ⟨rfl, rfl, reply, html, hr, hp, rfl⟩
  · rcases chatThen_cases L data p with ⟨hr, h1⟩ | ⟨reply, hr, hp, h1⟩ |
      ⟨reply, html, image, hr, hp, hi, hb, h1⟩ | ⟨reply, html, image, hr, hp, hi, hb, ht, h1⟩ |
      ⟨reply, html, image, text, hr, hp, hi, hb, ht, h1⟩
    · rw [h1]
      exact ⟨fun _ => Or.inl hr, fun _ => rfl⟩
    · rw [h1]
      exact ⟨fun _ => Or.inr (Or.inl ⟨reply, hr, hp⟩), fun _ => rfl⟩
    · rw [h1]
      constructor
      · intro h; exact Bool.noConfusion h
      · rintro (h | ⟨reply2, h2, hp2⟩ | ⟨image2, hi2, hb2, _⟩)
        · rw [hr] at h; exact Option.noConfusion h
        · rw [hr] at h2
          have := Option.some.inj h2
          subst this
          rw [hp] at hp2; exact Option.noConfusion hp2
        · rw [hi] at hi2
          have := Option.some.inj hi2
          subst this
          rw [hb] at hb2; exact Bool.noConfusion hb2
    · rw [h1]
      exact ⟨fun _ => Or.inr (Or.inr ⟨image, hi, hb, ht⟩), fun _ => rfl⟩
    · rw [h1]
      constructor
      · intro h; exact Bool.noConfusion h
      · rintro (h | ⟨reply2, h2, hp2⟩ | ⟨image2, hi2, _, ht2⟩)
        · rw [hr] at h; exact Option.noConfusion h
        · rw [hr] at h2
          have := Option.some.inj h2
          subst this
          rw [hp] at hp2; exact Option.noConfusion hp2
        · rw [hi] at hi2
          have := Option.some.inj hi2
          subst this
          rw [ht] at ht2; exact Option.noConfusion ht2

/-- C7 as stated fails: the body `null` is received and decoded as JSON, yet the
chat window gains the connection error message, because reading `reply` from
`null` throws inside the response callback and the `catch` callback takes over. -/
theorem decoded_null_shows_error :
    (chatSettled demoLibs (.json .null) demoPage).page.chatWindow =
      demoPage.chatWindow ++
        [Node.element "div" "msg bot" []
          [Node.element "div" "msg-text" []
            [Node.markup "<p>Error: Unable to connect to the server.</p>\n"]]] :=
  rfl

/-! ## Every inserted message is sanitized -/

theorem rendered_string (L : Libs) (s sender : String) :
    Rendered L (messageNode sender (L.sanitize (L.parseString s))) :=
  ⟨.string s, sender, L.parseString s, rfl, rfl⟩

theorem rendered_of_parse (L : Libs) (content : JSValue) (sender html : String)
    (h : L.markedParse content = some html) :
    Rendered L (messageNode sender (L.sanitize html)) :=
  ⟨content, sender, html, h, rfl⟩

theorem chatSettled_window (L : Libs) (s : Settlement) (p : Page) :
    ∃ inserted, (chatSettled L s p).page.chatWindow = p.chatWindow ++ inserted ∧
      ∀ n ∈ inserted, Rendered L n := by
  have herr := rendered_string L "Error: Unable to connect to the server." "bot"
  cases s with
  | rejected => exact ⟨[_], rfl, by simpa using herr⟩
  | notJson => exact ⟨[_], rfl, by simpa using herr⟩
  | json data =>
    rcases chatThen_cases L data p with ⟨hr, h1⟩ | ⟨reply, hr, hp, h1⟩ |
      ⟨reply, html, image, hr, hp, hi, hb, h1⟩ | ⟨reply, html, image, hr, hp, hi, hb, ht, h1⟩ |
      ⟨reply, html, image, text, hr, hp, hi, hb, ht, h1⟩
    · rw [chatSettled_of_throw L data p _ h1]
      exact ⟨[_], rfl, by simpa using herr⟩
    · rw [chatSettled_of_throw L data p _ h1]
      exact ⟨[_], rfl, by simpa using herr⟩
    · rw [chatSettled_of_normal L data p _ h1]
      exact ⟨[_], rfl, by simpa using rendered_of_parse L reply "bot" html hp⟩
    · rw [chatSettled_of_throw L data p _ h1, chatCatch_eq]
      refine ⟨[messageNode "bot" (L.sanitize html),
        messageNode "bot" (L.sanitize (L.parseString "Error: Unable to connect to the server."))],
        by simp [Completion.page], ?_⟩
      intro n hn
      simp only [List.mem_cons, List.mem_singleton, List.not_mem_nil, or_false] at hn
      rcases hn with hn | hn
      · rw [hn]; exact rendered_of_parse L reply "bot" html hp
      · rw [hn]; exact herr
    · rw [chatSettled_of_normal L data p _ h1]
      exact ⟨[_], rfl, by simpa using rendered_of_parse L reply "bot" html hp⟩

theorem step_window (L : Libs) (a : Action) (p : Page) :
    ∃ kept inserted, (step L a p).chatWindow = kept ++ inserted ∧
      (kept = p.chatWindow ∨ kept = []) ∧ ∀ n ∈ inserted, Rendered L n := by
  cases a with
  | edit value => exact ⟨p.chatWindow, [], by simp [step], Or.inl rfl, by simp⟩
  | resetClick => exact ⟨p.chatWindow, [], by simp [step, resetBtn.onclick, Completion.page],
      Or.inl rfl, by simp⟩
  | submit =>
    by_cases h : trim p.userInput = ""
    · refine ⟨p.chatWindow, [], ?_, Or.inl rfl, by simp⟩
      simp [step, onsubmit_blank L _ p h, Completion.page]
    · refine ⟨p.chatWindow,
        [messageNode "user" (L.sanitize (L.parseString (trim p.userInput)))], ?_, Or.inl rfl, ?_⟩
      · simp only [step, onsubmit_nonblank L _ p h, Completion.page]
      · simpa using rendered_string L (trim p.userInput) "user"
  | chatSettled s =>
    obtain ⟨inserted, h1, h2⟩ := chatSettled_window L s p
    exact ⟨p.chatWindow, inserted, h1, Or.inl rfl, h2⟩
  | resetSettled s =>
    cases s with
    | rejected => exact ⟨p.chatWindow, [], by simp [step, resetSettled, Completion.page],
        Or.inl rfl, by simp⟩
    | notJson => exact ⟨p.chatWindow, [], by simp [step, resetSettled, Completion.page],
        Or.inl rfl, by simp⟩
    | json data =>
      show ∃ kept inserted, (resetThen L data p).page.chatWindow = kept ++ inserted ∧ _
      rcases resetThen_cases L data p with h | ⟨reply, html, _, hp, h⟩
      · rw [h]
        exact ⟨[], [], rfl, Or.inr rfl, by simp⟩
      · rw [h]
        exact ⟨[], [_], rfl, Or.inr rfl, by simpa using rendered_of_parse L reply "bot" html hp⟩

theorem step_sanitized (L : Libs) (a : Action) (p : Page)
    (h : SanitizedBodies L p.chatWindow) : SanitizedBodies L (step L a p).chatWindow := by
  obtain ⟨kept, inserted, hw, hk, hins⟩ := step_window L a p
  rw [hw]
  intro n hn cls body hshape
  rcases List.mem_append.mp hn with hn | hn
  · rcases hk with hk | hk
    · rw [hk] at hn
      exact h n hn cls body hshape
    · rw [hk] at hn
      exact absurd hn (List.not_mem_nil n)
  · obtain ⟨content, sender, html, _, hnode⟩ := hins n hn
    rw [hnode] at hshape
    unfold messageNode at hshape
    injection hshape with _ _ _ hchildren
    injection hchildren with hchild _
    injection hchild with _ _ _ hbody
    injection hbody with hm _
    injection hm with hm
    exact ⟨html, hm.symm⟩

theorem run_sanitized (L : Libs) (as : List Action) (p : Page)
    (h : SanitizedBodies L p.chatWindow) : SanitizedBodies L (run L as p).chatWindow := by
  induction as generalizing p with
  | nil => exact h
  | cons a as ih => exact ih (step L a p) (step_sanitized L a p h)

/-- C6: `appendMessage` either throws with the page untouched or appends one
message whose body is `DOMPurify.sanitize(marked.parse(content))` for the content
passed in; every operation (edit, submit, chat response or failure, reset click,
reset response or failure) leaves the chat window equal to what it kept, all of
the previous content or none of it, followed by messages that were each
rendered so; hence along every sequence of operations `every message body in the
chat window is an output of the sanitizer` is preserved. -/
theorem messages_are_sanitized (L : Libs) :
    (∀ content sender p,
      (L.markedParse content = none ∧ appendMessage L content sender p = .throw p) ∨
      ∃ html, L.markedParse content = some html ∧
        appendMessage L content sender p =
          .normal { p with chatWindow := p.chatWindow ++
            [Node.element "div" ("msg " ++ sender) []
              [Node.element "div" "msg-text" [] [Node.markup (L.sanitize html)]]] }) ∧
    (∀ a p, ∃ kept inserted, (step L a p).chatWindow = kept ++ inserted ∧
      (kept = p.chatWindow ∨ kept = []) ∧ ∀ n ∈ inserted, Rendered L n) ∧
    (∀ as p, SanitizedBodies L p.chatWindow → SanitizedBodies L (run L as p).chatWindow) := by
  refine ⟨?_, step_window L, run_sanitized L⟩
  intro content sender p
  cases h : L.markedParse content with
  | none => exact Or.inl ⟨rfl, appendMessage_throw L content sender p h⟩
  | some html => exact Or.inr ⟨html, rfl, appendMessage_normal L content sender p html h⟩

end Chatbot
